import Mathlib

/-!
# Verification of the tensorzero inference-gateway core

This file gives a shallow embedding, in Lean 4, of the parts of the
tensorzero gateway that the specification's claims are about:

* version negotiation (`compare_versions`, `supports_tool_call_arguments_object`,
  `try_adjust_tool_call_arguments`) from `clients/rust/src/lib.rs`;
* JSON-mode output extraction (`get_json_output_from_content_blocks`),
  JSON response preparation (`prepare_response`, Json arm), the variant
  sampler (`sample_variant`, `get_uniform_value`) from
  `tensorzero-core/src/function.rs`;
* streaming chunk translation (`sglang_to_tensorzero_chunk`) and
  non-streaming response translation (`TryFrom<SGLangResponseWithMetadata>`)
  from `tensorzero-core/src/providers/sglang.rs`;
* the authentication path (`validate_auth_code_from_db`,
  `validate_auth_code_with_cache`, `increment_usage_and_stats`,
  `authenticate_request`) from `tensorzero-core/src/auth/`.

Rust `u32` arithmetic is modelled as `Nat` with explicit `% 2^32` where
overflow matters; `f64` weight arithmetic is modelled exactly over `ℚ`;
fallible Rust code returns `Except`; a Rust panic is modelled as a dedicated
result. External crates (`sha2`, `serde_json`, `jsonschema`) are modelled
from the specification where noted.
-/

namespace TensorZero

/-! ## Rust `u32::from_str` (core library), modelled exactly

`compare_versions` calls `str::parse::<u32>()`. We model `u32::from_str`:
an optional leading `+`, then decimal digits; an empty string yields
`Empty`, a non-digit yields `InvalidDigit`, exceeding `u32::MAX` yields
`PosOverflow`. -/

/-- The error kinds of Rust's `core::num::ParseIntError` that are reachable
when parsing a `u32` from a decimal string. -/
inductive ParseIntError where
  | empty
  | invalidDigit
  | posOverflow
deriving DecidableEq, Repr

/-- The `Display` strings of `core::num::ParseIntError`, as interpolated by
`format!("... {e}")` in `compare_versions`. -/
def ParseIntError.display : ParseIntError → String
  | .empty => "cannot parse integer from empty string"
  | .invalidDigit => "invalid digit found in string"
  | .posOverflow => "number too large to fit in target type"

/-- One step of the digit-accumulation loop of `u32::from_str`: check the
character is a decimal digit, then perform the checked multiply-add. -/
def parseU32Step (acc : Except ParseIntError Nat) (c : Char) : Except ParseIntError Nat := do
  let acc ← acc
  if c.isDigit then
    let v := acc * 10 + (c.toNat - '0'.toNat)
    if v < 2 ^ 32 then pure v else throw .posOverflow
  else
    throw .invalidDigit

/-- Rust's `u32::from_str` on a decimal string: optional leading `+`, then
at least one digit, with per-step overflow checking. -/
def parseU32 (s : String) : Except ParseIntError Nat :=
  match s.toList with
  | [] => throw .empty
  | c :: cs =>
    let digits := if c = '+' then cs else c :: cs
    match digits with
    | [] => throw .invalidDigit
    | _ => digits.foldl parseU32Step (pure 0)

/-! ## `compare_versions` (clients/rust/src/lib.rs)

The Rust function splits each version string on `.`, parses every component
as a `u32`, fails if either side fails to parse or the component counts
differ, and otherwise compares the two `Vec<u32>` with `Ord::cmp`
(lexicographic). Errors are `TensorZeroError::Other` wrapping an
`InternalError` with a formatted message; we model the error as that
message string. -/

/-- Rust `str::split('.')`: split a character list at every `'.'`, keeping
empty pieces (so `"a..b"` gives three pieces and `""` gives one). -/
def splitOnDot : List Char → List (List Char)
  | [] => [[]]
  | c :: cs =>
    if c = '.' then [] :: splitOnDot cs
    else
      match splitOnDot cs with
      | [] => [[c]]
      | p :: ps => (c :: p) :: ps

/-- `extract_numbers` from `compare_versions`: split on `.` and parse each
component as a `u32`, failing on the first parse error. -/
def extractNumbers (s : String) : Except ParseIntError (List Nat) :=
  ((splitOnDot s.toList).map String.mk).mapM parseU32

/-- Rust `Ord::cmp` on `Vec<u32>`: lexicographic comparison. -/
def cmpNatList : List Nat → List Nat → Ordering
  | [], [] => .eq
  | [], _ :: _ => .lt
  | _ :: _, [] => .gt
  | a :: as_, b :: bs =>
    match compare a b with
    | .eq => cmpNatList as_ bs
    | o => o

/-- `compare_versions` from `clients/rust/src/lib.rs`. The error side is the
`InternalError` message carried by `TensorZeroError::Other`. -/
def compare_versions (first second : String) : Except String Ordering := do
  let first_components ← (extractNumbers first).mapError fun e =>
    "Failed to parse first version string `" ++ first ++ "`: " ++ e.display
  let second_components ← (extractNumbers second).mapError fun e =>
    "Failed to parse second version string `" ++ second ++ "`: " ++ e.display
  if first_components.length ≠ second_components.length then
    throw ("Version strings `" ++ first ++ "` and `" ++ second ++
      "` have different number of components")
  else
    pure (cmpNatList first_components second_components)

end TensorZero

namespace TensorZero

deriving instance DecidableEq for Except

/-! ### Sanity examples for `compare_versions` -/

example : compare_versions "2025.01.1" "2025.01.01" = .ok .eq := by decide
example : compare_versions "2025.01.1" "2025.01.10" = .ok .lt := by decide

end TensorZero

/-- C3: `compare_versions` compares component-wise numerically: equal for
("2025.01.1","2025.01.01"), less for ("2025.01.1","2025.01.10"), greater for
("2026.01.1","2025.07.8"); a component-count mismatch such as
("2025.01","2025.01.1") is an error, as is a non-numeric component such as
("2025.01.1","2025.01.a"); in general, whenever both strings parse and the
component counts agree, the result is the lexicographic numeric comparison. -/
theorem TensorZero.compare_versions_spec :
    compare_versions "2025.01.1" "2025.01.01" = .ok .eq ∧
    compare_versions "2025.01.1" "2025.01.10" = .ok .lt ∧
    compare_versions "2026.01.1" "2025.07.8" = .ok .gt ∧
    compare_versions "2025.01" "2025.01.1" =
      .error "Version strings `2025.01` and `2025.01.1` have different number of components" ∧
    compare_versions "2025.01.1" "2025.01.a" =
      .error ("Failed to parse second version string `2025.01.a`: " ++
        "invalid digit found in string") ∧
    ∀ a b la lb, extractNumbers a = .ok la → extractNumbers b = .ok lb →
      compare_versions a b =
        if la.length ≠ lb.length then
          .error ("Version strings `" ++ a ++ "` and `" ++ b ++
            "` have different number of components")
        else .ok (cmpNatList la lb) := by
  refine ⟨by decide, by decide, by decide, by decide, by decide, ?_⟩
  intro a b la lb ha hb
  by_cases h : la.length = lb.length <;>
    simp [compare_versions, ha, hb, Except.mapError, h, Bind.bind, Except.bind, pure,
      Except.pure, throw, throwThe, MonadExceptOf.throw]

/-- Witness for C3: the general clause of `compare_versions_spec` applied at
the concrete pair ("2025.4","2026.1"), discharging its hypotheses. -/
theorem TensorZero.compare_versions_spec_witness :
    compare_versions "2025.4" "2026.1" = .ok .lt :=
  have h := (TensorZero.compare_versions_spec).2.2.2.2.2
    "2025.4" "2026.1" [2025, 4] [2026, 1] (by decide) (by decide)
  by simpa using h

namespace TensorZero

/-! ## JSON values (`serde_json::Value`)

Modelled from the spec: `serde_json` is an external dependency. A JSON value
is null, a boolean, a number (modelled as an integer: the claims never
exercise float formatting), a string, an array, or an object (an ordered
list of key/value pairs). `Value::to_string()` is the compact serialization
with no added whitespace. -/

/-- Modelled from the spec: `serde_json::Value`. -/
inductive Json where
  | null
  | bool (b : Bool)
  | num (n : Int)
  | str (s : String)
  | arr (items : List Json)
  | obj (fields : List (String × Json))
deriving Repr

/-- JSON string escaping for the compact serializer (quote and backslash;
the claims never serialize control characters). -/
def escapeJsonChar (c : Char) : String :=
  if c = '"' then "\\\"" else if c = '\\' then "\\\\" else String.singleton c

/-- A JSON string literal: quoted and escaped. -/
def serializeJsonString (s : String) : String :=
  "\"" ++ String.join (s.toList.map escapeJsonChar) ++ "\""

mutual

/-- Modelled from the spec: `serde_json::Value::to_string()`, the compact
JSON serialization (no added whitespace). -/
def serializeJson : Json → String
  | .null => "null"
  | .bool true => "true"
  | .bool false => "false"
  | .num n => toString n
  | .str s => serializeJsonString s
  | .arr items => "[" ++ serializeJsonArray items ++ "]"
  | .obj fields => "\x7b" ++ serializeJsonFields fields ++ "\x7d"

/-- Comma-separated serialization of a JSON array body. -/
def serializeJsonArray : List Json → String
  | [] => ""
  | [x] => serializeJson x
  | x :: y :: xs => serializeJson x ++ "," ++ serializeJsonArray (y :: xs)

/-- Comma-separated serialization of a JSON object body. -/
def serializeJsonFields : List (String × Json) → String
  | [] => ""
  | [(k, v)] => serializeJsonString k ++ ":" ++ serializeJson v
  | (k, v) :: y :: xs =>
    serializeJsonString k ++ ":" ++ serializeJson v ++ "," ++ serializeJsonFields (y :: xs)

end

/-! ## Client input (`tensorzero::client_input`)

Modelled from the spec and the client code that manipulates it (the
`client_input` module itself is outside the provided sources): a client
input has an optional system value and a list of messages; each message has
a role and a list of content blocks; a tool-call block carries an optional
name, optional JSON `arguments`, optional raw arguments, an id, and an
optional raw name. -/

/-- A message role. -/
inductive Role where
  | user
  | assistant
deriving DecidableEq, Repr

/-- Modelled from the spec: `ToolCallInput` as used by
`try_adjust_tool_call_arguments` and its test. -/
structure ToolCallInput where
  name : Option String
  arguments : Option Json
  raw_arguments : Option String
  id : String
  raw_name : Option String
deriving Repr

/-- Modelled from the spec: a client-side content block; blocks other than
tool calls are opaque to the adjustment. -/
inductive ClientInputMessageContent where
  | text (text : String)
  | rawText (value : String)
  | toolCall (tc : ToolCallInput)
  | other (payload : String)
deriving Repr

/-- Modelled from the spec: a client input message. -/
structure ClientInputMessage where
  role : Role
  content : List ClientInputMessageContent
deriving Repr

/-- Modelled from the spec: a client inference input. -/
structure ClientInput where
  system : Option Json
  messages : List ClientInputMessage
deriving Repr

/-- `supports_tool_call_arguments_object` from `clients/rust/src/lib.rs`:
the peer supports object-valued tool-call arguments when its version
compares greater or equal to the constant minimum version `2025.03.3`. -/
def supports_tool_call_arguments_object (gateway_version : String) : Except String Bool := do
  let o ← compare_versions gateway_version "2025.03.3"
  pure (o == .gt || o == .eq)

/-- The body of the adjustment loop of `try_adjust_tool_call_arguments`: a
tool call whose `arguments` is a JSON object has it replaced by the string
of its serialization; everything else is untouched. -/
def adjustContentBlock (content : ClientInputMessageContent) : ClientInputMessageContent :=
  match content with
  | .toolCall tc =>
    match tc.arguments with
    | some (.obj fields) =>
      .toolCall { tc with arguments := some (.str (serializeJson (.obj fields))) }
    | _ => .toolCall tc
  | c => c

/-- `try_adjust_tool_call_arguments` from `clients/rust/src/lib.rs`: skip
when the known gateway version is recent enough, otherwise stringify every
object-valued tool-call `arguments` in every message. The Rust function
mutates `input` in place; we return the adjusted input. -/
def try_adjust_tool_call_arguments (gateway_version : Option String)
    (input : ClientInput) : Except String ClientInput := do
  match gateway_version with
  | some gv =>
    if (← supports_tool_call_arguments_object gv) then
      pure input
    else
      pure { input with
        messages := input.messages.map fun msg =>
          { msg with content := msg.content.map adjustContentBlock } }
  | none =>
    pure { input with
      messages := input.messages.map fun msg =>
        { msg with content := msg.content.map adjustContentBlock } }

/-- The per-block adjustment as the specification words it: "any
`ToolCall.arguments` that is a JSON object is replaced by its string
serialization; string and array argument values are untouched" (and
non-tool-call blocks are untouched). -/
def adjustContentBlockSpec (content : ClientInputMessageContent) : ClientInputMessageContent :=
  match content with
  | .toolCall tc =>
    match tc.arguments with
    | some (.obj fields) =>
      .toolCall { tc with arguments := some (.str (serializeJson (.obj fields))) }
    | _ => .toolCall tc
  | c => c

end TensorZero

/-- C2: when the peer gateway version is absent or compares strictly below
2025.03.3, `try_adjust_tool_call_arguments` replaces, in every message,
every tool-call argument value that is a JSON object by the string of its
JSON serialization, leaving all other blocks (and string or array argument
values) unchanged; when the peer version compares greater or equal to
2025.03.3, the input is returned entirely unchanged. -/
theorem TensorZero.try_adjust_tool_call_arguments_spec :
    ∀ (gateway_version : Option String) (input : ClientInput),
      ((gateway_version = none ∨
        ∃ v, gateway_version = some v ∧ compare_versions v "2025.03.3" = .ok .lt) →
        try_adjust_tool_call_arguments gateway_version input =
          .ok { input with
            messages := input.messages.map fun msg =>
              { msg with content := msg.content.map adjustContentBlockSpec } }) ∧
      (∀ v, gateway_version = some v →
        (compare_versions v "2025.03.3" = .ok .eq ∨
         compare_versions v "2025.03.3" = .ok .gt) →
        try_adjust_tool_call_arguments gateway_version input = .ok input) := by
  intro gv input
  have hblock : adjustContentBlock = adjustContentBlockSpec := by
    funext c
    cases c <;> rfl
  constructor
  · rintro (rfl | ⟨v, rfl, hv⟩)
    · rw [← hblock]
      rfl
    · rw [← hblock]
      simp only [try_adjust_tool_call_arguments, supports_tool_call_arguments_object, hv]
      rfl
  · rintro v rfl (hv | hv) <;>
      simp only [try_adjust_tool_call_arguments, supports_tool_call_arguments_object, hv] <;>
      rfl

/-- The concrete input of the `try_adjust_tool_call_arguments` witness: one
user message holding a tool call with object arguments, a tool call with
string arguments, and a text block. -/
def TensorZero.c2ExampleInput : ClientInput :=
  ⟨none, [⟨.user,
    [.toolCall ⟨some "test_name", some (.obj [("key", .str "value")]),
       some "My raw args", "My id", some "test_raw_name"⟩,
     .toolCall ⟨some "other_test_name", some (.str "Initial string args"),
       some "My raw args", "My id", some "test_raw_name"⟩,
     .text "hello"]⟩]⟩

/-- The expected adjusted form of `c2ExampleInput`: only the object-valued
tool-call arguments are stringified to their compact JSON serialization. -/
def TensorZero.c2ExampleAdjusted : ClientInput :=
  ⟨none, [⟨.user,
    [.toolCall ⟨some "test_name", some (.str "\x7b\"key\":\"value\"\x7d"),
       some "My raw args", "My id", some "test_raw_name"⟩,
     .toolCall ⟨some "other_test_name", some (.str "Initial string args"),
       some "My raw args", "My id", some "test_raw_name"⟩,
     .text "hello"]⟩]⟩

/-- Witness for C2: on `c2ExampleInput`, an absent peer version stringifies
exactly the object-valued tool-call arguments, and peer version 2025.03.3
leaves the input unchanged. -/
theorem TensorZero.try_adjust_tool_call_arguments_spec_witness :
    try_adjust_tool_call_arguments none c2ExampleInput = .ok c2ExampleAdjusted ∧
    try_adjust_tool_call_arguments (some "2025.03.3") c2ExampleInput = .ok c2ExampleInput := by
  constructor
  · have h := (TensorZero.try_adjust_tool_call_arguments_spec none c2ExampleInput).1
      (Or.inl rfl)
    rw [h]
    simp [c2ExampleInput, c2ExampleAdjusted, adjustContentBlockSpec, serializeJson,
      serializeJsonFields, serializeJsonString, escapeJsonChar, String.join]
    decide
  · exact (TensorZero.try_adjust_tool_call_arguments_spec (some "2025.03.3")
      c2ExampleInput).2 "2025.03.3" rfl (Or.inl (by decide))

namespace TensorZero

/-! ## Output content blocks and JSON extraction
(`tensorzero-core/src/function.rs`)

`ContentBlockOutput` is the normalized output block type
(`inference::types`): text, tool call, thought, or an unknown block. The
JSON-mode extraction walks the blocks from the end. -/

/-- An output text block (`Text { text }`). -/
structure Text where
  text : String
deriving DecidableEq, Repr

/-- An output tool-call block (`ToolCall { id, name, arguments }`, with the
arguments kept as the raw string the provider returned). -/
structure ToolCallOutput where
  id : String
  name : String
  arguments : String
deriving DecidableEq, Repr

/-- An output thought block (`Thought { text, signature }`). -/
structure Thought where
  text : String
  signature : Option String
deriving DecidableEq, Repr

/-- `ContentBlockOutput` from `inference::types`: the normalized output
content block. -/
inductive ContentBlockOutput where
  | text (t : Text)
  | toolCall (tc : ToolCallOutput)
  | thought (t : Thought)
  | unknown (data : String)
deriving DecidableEq, Repr

/-- The match arm of the extraction's `find_map`: a `Text` block yields its
text, a `ToolCall` block yields its arguments, anything else is skipped. -/
def jsonPayload : ContentBlockOutput → Option String
  | .text t => some t.text
  | .toolCall tc => some tc.arguments
  | _ => none

/-- The match arm of the extraction's `position`: is the block a `Text` or
a `ToolCall`? -/
def isJsonBlock : ContentBlockOutput → Bool
  | .text _ => true
  | .toolCall _ => true
  | _ => false

/-- Rust `iter().rev().find_map(f)`: the value of `f` at the last element
where it is `some`. -/
def findMapLast (f : α → Option β) : List α → Option β
  | [] => none
  | x :: xs =>
    match findMapLast f xs with
    | some v => some v
    | none => f x

/-- Rust `iter().rev().position(p)`: the index, counted from the end
(0 = last element), of the last element satisfying `p`. -/
def findIdxFromEnd (p : α → Bool) : List α → Option Nat
  | [] => none
  | x :: xs =>
    match findIdxFromEnd p xs with
    | some i => some i
    | none => if p x then some xs.length else none

/-- `get_json_output_from_content_blocks` from
`tensorzero-core/src/function.rs`: the raw output is the payload of the
last `Text`-or-`ToolCall` block; that block is removed (`Vec::remove`) from
the list, the rest is the auxiliary content, and its index in the original
list is returned. -/
def get_json_output_from_content_blocks (content_blocks : List ContentBlockOutput) :
    Option String × List ContentBlockOutput × Option Nat :=
  let raw_output := findMapLast jsonPayload content_blocks
  let maybe_index_from_end := findIdxFromEnd isJsonBlock content_blocks
  match maybe_index_from_end with
  | some i =>
    let index_from_start := content_blocks.length - 1 - i
    (raw_output, content_blocks.eraseIdx index_from_start, some index_from_start)
  | none => (raw_output, content_blocks, none)

/-- `jsonPayload` is `some` exactly on the `Text`/`ToolCall` blocks. -/
theorem jsonPayload_isSome (b : ContentBlockOutput) :
    (jsonPayload b).isSome = isJsonBlock b := by
  cases b <;> rfl

/-- `findMapLast` is `none` when `f` is `none` everywhere. -/
theorem findMapLast_eq_none {f : α → Option β} {l : List α}
    (h : ∀ b ∈ l, f b = none) : findMapLast f l = none := by
  induction l with
  | nil => rfl
  | cons x xs ih =>
    have hx : f x = none := h x (by simp)
    have hxs : findMapLast f xs = none := ih fun b hb => h b (by simp [hb])
    simp [findMapLast, hxs, hx]

/-- `findIdxFromEnd` is `none` when no element satisfies `p`. -/
theorem findIdxFromEnd_eq_none {p : α → Bool} {l : List α}
    (h : ∀ b ∈ l, p b = false) : findIdxFromEnd p l = none := by
  induction l with
  | nil => rfl
  | cons x xs ih =>
    have hx : p x = false := h x (by simp)
    have hxs : findIdxFromEnd p xs = none := ih fun b hb => h b (by simp [hb])
    simp [findIdxFromEnd, hxs, hx]

/-- At the last index satisfying `p`, `findIdxFromEnd` returns that index
counted from the end, and `findMapLast` returns `f` of that element
(for `f` whose domain is exactly `p`). -/
theorem findIdxFromEnd_findMapLast_last {p : α → Bool} {f : α → Option β}
    (hfp : ∀ b, (f b).isSome = p b) :
    ∀ (l : List α) (j : Nat) (hj : j < l.length),
      p (l.get ⟨j, hj⟩) = true →
      (∀ k (hk : k < l.length), j < k → p (l.get ⟨k, hk⟩) = false) →
      findIdxFromEnd p l = some (l.length - 1 - j) ∧
        findMapLast f l = f (l.get ⟨j, hj⟩) := by
  intro l
  induction l with
  | nil => intro j hj; exact absurd hj (by simp)
  | cons x xs ih =>
    intro j hj hp hlast
    match j with
    | 0 =>
      have hxs : ∀ b ∈ xs, p b = false := by
        intro b hb
        obtain ⟨⟨k, hk⟩, hbk⟩ := List.mem_iff_get.mp hb
        have h2 := hlast (k + 1) (by simpa using Nat.succ_lt_succ hk) (Nat.succ_pos k)
        rw [← hbk]
        simpa using h2
      have hidx : findIdxFromEnd p xs = none := findIdxFromEnd_eq_none hxs
      have hmap : findMapLast f xs = none := findMapLast_eq_none fun b hb => by
        have := hfp b
        rw [hxs b hb] at this
        exact Option.not_isSome_iff_eq_none.mp (by simp [this])
      have hpx : p x = true := by simpa using hp
      constructor
      · simp [findIdxFromEnd, hidx, hpx]
      · simp [findMapLast, hmap]
    | j' + 1 =>
      have hj' : j' < xs.length := by simpa using Nat.lt_of_succ_lt_succ hj
      have hp' : p (xs.get ⟨j', hj'⟩) = true := by simpa using hp
      have hlast' : ∀ k (hk : k < xs.length), j' < k → p (xs.get ⟨k, hk⟩) = false := by
        intro k hk hkj
        have := hlast (k + 1) (by simpa using Nat.succ_lt_succ hk) (Nat.succ_lt_succ hkj)
        simpa using this
      obtain ⟨hidx, hmap⟩ := ih j' hj' hp' hlast'
      have hsome : (f (xs.get ⟨j', hj'⟩)).isSome = true := by
        rw [hfp]; exact hp'
      obtain ⟨v, hv⟩ := Option.isSome_iff_exists.mp hsome
      constructor
      · have harith : xs.length - 1 - j' = (x :: xs).length - 1 - (j' + 1) := by
          simp only [List.length_cons]
          omega
        rw [← harith]
        simp [findIdxFromEnd, hidx]
      · have hcons : findMapLast f (x :: xs) = some v := by
          have hv2 : f xs[j'] = some v := hv
          simp [findMapLast, hmap, hv2]
        calc findMapLast f (x :: xs) = some v := hcons
          _ = f (xs.get ⟨j', hj'⟩) := hv.symm
          _ = f ((x :: xs).get ⟨j' + 1, hj⟩) := rfl

/-- `Vec::remove` keeps the prefix and the suffix in order. -/
theorem eraseIdx_eq_take_append_drop : ∀ (l : List α) (i : Nat),
    l.eraseIdx i = l.take i ++ l.drop (i + 1) := by
  intro l
  induction l with
  | nil => intro i; cases i <;> rfl
  | cons x xs ih =>
    intro i
    cases i with
    | zero => rfl
    | succ i' => simp [List.eraseIdx, ih i']

end TensorZero

/-- C1: `get_json_output_from_content_blocks` — when no block is a `Text`
or `ToolCall`, the raw output and the index are absent and every block is
auxiliary; when index `j` holds the last `Text`-or-`ToolCall` block, the
raw output is that block's text (for `Text`) or arguments (for `ToolCall`),
the returned index is `j`, and the auxiliary content is exactly the other
blocks in their original order. -/
theorem TensorZero.get_json_output_from_content_blocks_spec
    (blocks : List ContentBlockOutput) :
    ((∀ b ∈ blocks, isJsonBlock b = false) →
      get_json_output_from_content_blocks blocks = (none, blocks, none)) ∧
    (∀ j (hj : j < blocks.length),
      isJsonBlock (blocks.get ⟨j, hj⟩) = true →
      (∀ k (hk : k < blocks.length), j < k → isJsonBlock (blocks.get ⟨k, hk⟩) = false) →
      get_json_output_from_content_blocks blocks =
        (jsonPayload (blocks.get ⟨j, hj⟩),
         blocks.take j ++ blocks.drop (j + 1),
         some j)) := by
  constructor
  · intro hnone
    have hidx : findIdxFromEnd isJsonBlock blocks = none := findIdxFromEnd_eq_none hnone
    have hmap : findMapLast jsonPayload blocks = none := findMapLast_eq_none fun b hb => by
      have := jsonPayload_isSome b
      rw [hnone b hb] at this
      exact Option.not_isSome_iff_eq_none.mp (by simp [this])
    simp [get_json_output_from_content_blocks, hidx, hmap]
  · intro j hj hp hlast
    obtain ⟨hidx, hmap⟩ :=
      findIdxFromEnd_findMapLast_last jsonPayload_isSome blocks j hj hp hlast
    have harith : blocks.length - 1 - (blocks.length - 1 - j) = j := by omega
    simp [get_json_output_from_content_blocks, hidx, hmap, harith,
      eraseIdx_eq_take_append_drop]

/-- Witness for C1: on `[Text "A", Text "B"]` the raw output is `"B"`, the
index is 1, and the auxiliary content is `[Text "A"]`; on
`[Thought, Thought]` the raw output and index are absent and both blocks
are auxiliary. -/
theorem TensorZero.get_json_output_from_content_blocks_spec_witness :
    get_json_output_from_content_blocks [.text ⟨"A"⟩, .text ⟨"B"⟩] =
      (some "B", [.text ⟨"A"⟩], some 1) ∧
    get_json_output_from_content_blocks
        [.thought ⟨"t1", none⟩, .thought ⟨"t2", none⟩] =
      (none, [.thought ⟨"t1", none⟩, .thought ⟨"t2", none⟩], none) := by
  constructor
  · have h := (TensorZero.get_json_output_from_content_blocks_spec
      [.text ⟨"A"⟩, .text ⟨"B"⟩]).2 1 (by decide) (by decide)
      (fun k hk hk1 => by exfalso; simp at hk; omega)
    simpa using h
  · have h := (TensorZero.get_json_output_from_content_blocks_spec
      [.thought ⟨"t1", none⟩, .thought ⟨"t2", none⟩]).1
      (fun b hb => by fin_cases hb <;> rfl)
    simpa using h

namespace TensorZero

/-! ## JSON response preparation (`prepare_response`, Json arm)
(`tensorzero-core/src/function.rs`)

The Json arm of `FunctionConfig::prepare_response` extracts the raw output,
tries to parse it as JSON, and validates the parsed value against the
dynamic output schema when one is provided, else the static one. JSON
parsing (`serde_json::from_str`) and JSON-Schema validation
(`jsonschema_util`, not among the provided sources) are external to the
translated code: parsing is passed in as a function and a schema is
modelled from the spec as its validation predicate. -/

/-- Modelled from the spec: a JSON output schema, represented by its
validation predicate (`true` = the value validates). -/
abbrev OutputSchema := Json → Bool

/-- The JSON output pair of `JsonInferenceResult`: the raw extracted string
and the parsed-and-validated value. -/
structure JsonInferenceOutput where
  raw : Option String
  parsed : Option Json

/-- The parts of `JsonInferenceResult` that `prepare_response` computes
from the content blocks. -/
structure JsonInferenceResult where
  output : JsonInferenceOutput
  json_block_index : Option Nat
  auxiliary_content : List ContentBlockOutput

/-- The Json arm of `FunctionConfig::prepare_response` from
`tensorzero-core/src/function.rs`: extract `(raw_output, auxiliary_content,
json_block_index)`, parse the raw output (a failure logs and leaves
`parsed` empty), then validate against the dynamic output schema if
provided, else the static one (a failure leaves `parsed` empty). -/
def prepare_response_json (parseJson : String → Option Json)
    (output_schema : OutputSchema) (dynamic_output_schema : Option OutputSchema)
    (content_blocks : List ContentBlockOutput) : JsonInferenceResult :=
  let extracted := get_json_output_from_content_blocks content_blocks
  let raw_output := extracted.1
  let auxiliary_content := extracted.2.1
  let json_block_index := extracted.2.2
  let parsed_output : Option Json := raw_output.bind fun raw => parseJson raw
  let schema := match dynamic_output_schema with
    | some schema => schema
    | none => output_schema
  let parsed_output : Option Json :=
    match parsed_output with
    | some parsed => if schema parsed then some parsed else none
    | none => none
  ⟨⟨raw_output, parsed_output⟩, json_block_index, auxiliary_content⟩

end TensorZero

/-- C7: for a Json function, `prepare_response` keeps the extracted raw
output and the extraction's auxiliary content and block index; when the raw
output fails to parse as JSON the parsed output is absent (raw retained);
when it parses, the value is validated against the dynamic output schema if
provided, else the static one — an invalid value leaves the parsed output
absent (raw retained) and a valid value is returned as the parsed output. -/
theorem TensorZero.prepare_response_json_spec
    (parseJson : String → Option Json) (static_schema : OutputSchema)
    (dynamic_output_schema : Option OutputSchema)
    (blocks : List ContentBlockOutput) :
    let res := prepare_response_json parseJson static_schema dynamic_output_schema blocks
    let extracted := get_json_output_from_content_blocks blocks
    res.output.raw = extracted.1 ∧
    res.auxiliary_content = extracted.2.1 ∧
    res.json_block_index = extracted.2.2 ∧
    (extracted.1 = none → res.output.parsed = none) ∧
    (∀ s, extracted.1 = some s → parseJson s = none → res.output.parsed = none) ∧
    (∀ s v, extracted.1 = some s → parseJson s = some v →
      res.output.parsed =
        (if (dynamic_output_schema.getD static_schema) v then some v else none)) := by
  refine ⟨rfl, rfl, rfl, ?_, ?_, ?_⟩
  · intro hraw
    simp [prepare_response_json, hraw]
  · intro s hraw hparse
    simp [prepare_response_json, hraw, hparse]
  · intro s v hraw hparse
    cases dynamic_output_schema with
    | none => simp [prepare_response_json, hraw, hparse]
    | some schema => simp [prepare_response_json, hraw, hparse]

/-- Witness for C7: with a parser that accepts only the object
`{"name":"Jerry","age":30}` and a schema that accepts only objects with
both a name and an age field, a valid payload parses to the object, while
a schema-invalid payload yields no parsed output with the raw retained. -/
theorem TensorZero.prepare_response_json_spec_witness :
    (prepare_response_json
        (fun s => if s = "ok" then some (.obj [("name", .str "Jerry"), ("age", .num 30)])
                  else none)
        (fun v => match v with
          | .obj [("name", _), ("age", _)] => true
          | _ => false)
        none
        [.text ⟨"ok"⟩]).output.parsed =
      some (.obj [("name", .str "Jerry"), ("age", .num 30)]) ∧
    (prepare_response_json
        (fun _ => some (.obj [("name", .str "Jerry")]))
        (fun v => match v with
          | .obj [("name", _), ("age", _)] => true
          | _ => false)
        none
        [.text ⟨"bad"⟩]).output = ⟨some "bad", none⟩ := by
  constructor
  · have h := (TensorZero.prepare_response_json_spec
      (fun s => if s = "ok" then some (.obj [("name", .str "Jerry"), ("age", .num 30)])
                else none)
      (fun v => match v with
        | .obj [("name", _), ("age", _)] => true
        | _ => false)
      none [.text ⟨"ok"⟩]).2.2.2.2.2 "ok"
      (.obj [("name", .str "Jerry"), ("age", .num 30)]) rfl (by simp)
    simpa using h
  · have hspec := TensorZero.prepare_response_json_spec
      (fun _ => some (.obj [("name", .str "Jerry")]))
      (fun v => match v with
        | .obj [("name", _), ("age", _)] => true
        | _ => false)
      none [.text ⟨"bad"⟩]
    have hraw := hspec.1
    have hparsed := hspec.2.2.2.2.2 "bad" (.obj [("name", .str "Jerry")]) rfl rfl
    have : (prepare_response_json
        (fun _ => some (.obj [("name", .str "Jerry")]))
        (fun v => match v with
          | .obj [("name", _), ("age", _)] => true
          | _ => false)
        none [.text ⟨"bad"⟩]).output.raw = some "bad" := by
      rw [hraw]
      rfl
    cases hout : (prepare_response_json
        (fun _ => some (.obj [("name", .str "Jerry")]))
        (fun v => match v with
          | .obj [("name", _), ("age", _)] => true
          | _ => false)
        none [.text ⟨"bad"⟩]).output with
    | mk raw parsed =>
      simp [hout] at this hparsed
      simp [this, hparsed]

namespace TensorZero

/-! ## SHA-256 and the sampler's uniform value
(`tensorzero-core/src/function.rs`)

`get_uniform_value` hashes `function_name.as_bytes()` followed by the 16
bytes of the episode id, reads the first 4 digest bytes as a big-endian
`u32`, and divides. SHA-256 itself comes from the external `sha2` crate:
it is modelled from the spec below, as the FIPS 180-4 algorithm over byte
lists (bytes and 32-bit words are `Nat` with explicit `% 2^32` / `% 256`).
The `f64` division is modelled exactly over `ℚ` (both the dividend and the
divisor are exactly representable in `f64`, and the rounding of the
quotient is far smaller than the gaps the claims are about). -/

/-- `u32::MAX`. -/
def u32MAX : Nat := 4294967295

/-- 32-bit modular addition. -/
def add32 (a b : Nat) : Nat := (a + b) % 4294967296

/-- 32-bit right rotation. -/
def rotr32 (x n : Nat) : Nat := ((x >>> n) ||| (x <<< (32 - n))) % 4294967296

/-- 32-bit bitwise complement. -/
def not32 (x : Nat) : Nat := x ^^^ u32MAX

/-- Modelled from the spec (FIPS 180-4): Σ0. -/
def bigSigma0 (x : Nat) : Nat := rotr32 x 2 ^^^ rotr32 x 13 ^^^ rotr32 x 22

/-- Modelled from the spec (FIPS 180-4): Σ1. -/
def bigSigma1 (x : Nat) : Nat := rotr32 x 6 ^^^ rotr32 x 11 ^^^ rotr32 x 25

/-- Modelled from the spec (FIPS 180-4): σ0. -/
def smallSigma0 (x : Nat) : Nat := rotr32 x 7 ^^^ rotr32 x 18 ^^^ (x >>> 3)

/-- Modelled from the spec (FIPS 180-4): σ1. -/
def smallSigma1 (x : Nat) : Nat := rotr32 x 17 ^^^ rotr32 x 19 ^^^ (x >>> 10)

/-- Modelled from the spec (FIPS 180-4): Ch. -/
def shaCh (x y z : Nat) : Nat := (x &&& y) ^^^ (not32 x &&& z)

/-- Modelled from the spec (FIPS 180-4): Maj. -/
def shaMaj (x y z : Nat) : Nat := (x &&& y) ^^^ (x &&& z) ^^^ (y &&& z)

/-- The 64 SHA-256 round constants. -/
def sha256K : List Nat :=
  [1116352408, 1899447441, 3049323471, 3921009573,
   961987163, 1508970993, 2453635748, 2870763221,
   3624381080, 310598401, 607225278, 1426881987,
   1925078388, 2162078206, 2614888103, 3248222580,
   3835390401, 4022224774, 264347078, 604807628,
   770255983, 1249150122, 1555081692, 1996064986,
   2554220882, 2821834349, 2952996808, 3210313671,
   3336571891, 3584528711, 113926993, 338241895,
   666307205, 773529912, 1294757372, 1396182291,
   1695183700, 1986661051, 2177026350, 2456956037,
   2730485921, 2820302411, 3259730800, 3345764771,
   3516065817, 3600352804, 4094571909, 275423344,
   430227734, 506948616, 659060556, 883997877,
   958139571, 1322822218, 1537002063, 1747873779,
   1955562222, 2024104815, 2227730452, 2361852424,
   2428436474, 2756734187, 3204031479, 3329325298]

/-- The SHA-256 initial hash value. -/
def sha256H0 : List Nat :=
  [1779033703, 3144134277, 1013904242,
   2773480762, 1359893119, 2600822924,
   528734635, 1541459225]

/-- A 64-bit value as 8 big-endian bytes. -/
def beBytes8 (n : Nat) : List Nat :=
  [(n >>> 56) % 256, (n >>> 48) % 256, (n >>> 40) % 256, (n >>> 32) % 256,
   (n >>> 24) % 256, (n >>> 16) % 256, (n >>> 8) % 256, n % 256]

/-- A 32-bit word as 4 big-endian bytes. -/
def wordBeBytes (w : Nat) : List Nat :=
  [(w >>> 24) % 256, (w >>> 16) % 256, (w >>> 8) % 256, w % 256]

/-- SHA-256 message padding: `0x80`, zeros to 56 mod 64, then the bit
length as 8 big-endian bytes. -/
def sha256Pad (msg : List Nat) : List Nat :=
  msg ++ [128] ++ List.replicate ((119 - msg.length % 64) % 64) 0 ++ beBytes8 (8 * msg.length)

/-- Big-endian 4-byte groups as 32-bit words. -/
def bytesToWords : List Nat → List Nat
  | b0 :: b1 :: b2 :: b3 :: rest =>
    (((b0 * 256 + b1) * 256 + b2) * 256 + b3) :: bytesToWords rest
  | _ => []

/-- One extension step of the SHA-256 message schedule. -/
def scheduleStep (w : List Nat) : List Nat :=
  let i := w.length
  w ++ [add32 (add32 (smallSigma1 (w.getD (i - 2) 0)) (w.getD (i - 7) 0))
          (add32 (smallSigma0 (w.getD (i - 15) 0)) (w.getD (i - 16) 0))]

/-- The SHA-256 message schedule: 16 block words extended to 64. -/
def messageSchedule (w16 : List Nat) : List Nat := scheduleStep^[48] w16

/-- One SHA-256 compression round on the state `[a,b,c,d,e,f,g,h]`. -/
def compressStep (st : List Nat) (kw : Nat × Nat) : List Nat :=
  match st with
  | [a, b, c, d, e, f, g, h] =>
    let t1 := add32 h (add32 (bigSigma1 e) (add32 (shaCh e f g) (add32 kw.1 kw.2)))
    let t2 := add32 (bigSigma0 a) (shaMaj a b c)
    [add32 t1 t2, a, b, c, add32 d t1, e, f, g]
  | st => st

/-- SHA-256 compression of one 64-byte block into the running hash. -/
def compressBlock (h : List Nat) (block : List Nat) : List Nat :=
  let w := messageSchedule (bytesToWords block)
  let st := (sha256K.zip w).foldl compressStep h
  (h.zip st).map fun p => add32 p.1 p.2

/-- Split into 64-byte blocks (with a fuel argument to keep the recursion
structural; the fuel given by `sha256` always suffices). -/
def toBlocksFuel : Nat → List Nat → List (List Nat)
  | 0, _ => []
  | _ + 1, [] => []
  | fuel + 1, b :: rest => (b :: rest).take 64 :: toBlocksFuel fuel ((b :: rest).drop 64)

/-- Modelled from the spec: SHA-256 (the `sha2` crate is an external
dependency) of a byte list, as 32 digest bytes. -/
def sha256 (msg : List Nat) : List Nat :=
  let padded := sha256Pad msg
  let digest := (toBlocksFuel (padded.length / 64 + 1) padded).foldl compressBlock sha256H0
  digest.flatMap wordBeBytes

/-- UTF-8 encoding of one character (Rust `str::as_bytes` is the UTF-8
encoding of the string). -/
def utf8EncodeChar (c : Char) : List Nat :=
  let n := c.toNat
  if n < 128 then [n]
  else if n < 2048 then [192 ||| (n >>> 6), 128 ||| (n &&& 63)]
  else if n < 65536 then
    [224 ||| (n >>> 12), 128 ||| ((n >>> 6) &&& 63), 128 ||| (n &&& 63)]
  else
    [240 ||| (n >>> 18), 128 ||| ((n >>> 12) &&& 63), 128 ||| ((n >>> 6) &&& 63),
     128 ||| (n &&& 63)]

/-- Rust `str::as_bytes()`: the UTF-8 bytes of a string. -/
def utf8Bytes (s : String) : List Nat := (s.toList.map utf8EncodeChar).flatten

/-- A UUID as its 16 bytes (`uuid::Uuid::as_bytes`). -/
structure Uuid where
  bytes : List Nat
deriving Repr

/-- `u32::from_be_bytes` of the first four bytes of a digest. -/
def u32_from_be_bytes (bytes : List Nat) : Nat :=
  bytes.getD 0 0 * 2 ^ 24 + bytes.getD 1 0 * 2 ^ 16 + bytes.getD 2 0 * 2 ^ 8 + bytes.getD 3 0

/-- The `truncated_hash` of `get_uniform_value`: the first 4 bytes of
SHA-256(function_name bytes ++ episode id bytes), read big-endian. -/
def sha256TruncatedHash (function_name : String) (episode_id : Uuid) : Nat :=
  u32_from_be_bytes (sha256 (utf8Bytes function_name ++ episode_id.bytes))

/-- `get_uniform_value` from `tensorzero-core/src/function.rs`:
`truncated_hash as f64 / u32::MAX as f64`, modelled exactly over `ℚ`. -/
def get_uniform_value (function_name : String) (episode_id : Uuid) : ℚ :=
  (sha256TruncatedHash function_name episode_id : ℚ) / (u32MAX : ℚ)

/-- The uniform value as the specification words it: the truncated hash
"divided by `2^32`". -/
def uniformValueClaim (function_name : String) (episode_id : Uuid) : ℚ :=
  (sha256TruncatedHash function_name episode_id : ℚ) / 2 ^ 32

/-- Every byte SHA-256 emits is below 256. -/
theorem sha256_bytes_lt (msg : List Nat) : ∀ b ∈ sha256 msg, b < 256 := by
  intro b hb
  simp only [sha256, List.mem_flatMap] at hb
  obtain ⟨w, _, hw⟩ := hb
  simp only [wordBeBytes, List.mem_cons, List.not_mem_nil, or_false] at hw
  rcases hw with rfl | rfl | rfl | rfl <;> exact Nat.mod_lt _ (by norm_num)

/-- `getD` of a list of small numbers is small. -/
theorem getD_lt_256 (l : List Nat) (h : ∀ b ∈ l, b < 256) (i : Nat) :
    l.getD i 0 < 256 := by
  induction l generalizing i with
  | nil => simp [List.getD]
  | cons x xs ih =>
    cases i with
    | zero => exact h x (by simp)
    | succ i' =>
      simpa [List.getD] using ih (fun b hb => h b (by simp [hb])) i'

/-- The truncated hash fits in a `u32`. -/
theorem sha256TruncatedHash_le (function_name : String) (episode_id : Uuid) :
    sha256TruncatedHash function_name episode_id ≤ u32MAX := by
  have hbytes := sha256_bytes_lt (utf8Bytes function_name ++ episode_id.bytes)
  have h0 := getD_lt_256 _ hbytes 0
  have h1 := getD_lt_256 _ hbytes 1
  have h2 := getD_lt_256 _ hbytes 2
  have h3 := getD_lt_256 _ hbytes 3
  unfold sha256TruncatedHash u32_from_be_bytes u32MAX
  omega

end TensorZero

/-- C4 counterexample: at the concrete input (function name
"test_function", all-zero episode id), the sampler's uniform value — the
truncated hash divided by `u32::MAX`, i.e. `2^32 - 1` — differs from the
claimed truncated hash divided by `2^32`. -/
theorem TensorZero.get_uniform_value_counterexample :
    get_uniform_value "test_function" ⟨List.replicate 16 0⟩ ≠
      uniformValueClaim "test_function" ⟨List.replicate 16 0⟩ := by
  have hhash : sha256TruncatedHash "test_function" ⟨List.replicate 16 0⟩ = 2816930927 := by
    decide
  unfold get_uniform_value uniformValueClaim u32MAX
  rw [hhash]
  norm_num

/-- C4 (amended): the sampler's uniform value equals the first 4 bytes of
SHA-256(function_name || episode_id), read as a big-endian unsigned 32-bit
integer, divided by `2^32 - 1` (`u32::MAX`), and therefore always lies in
the closed interval [0, 1]. -/
theorem TensorZero.get_uniform_value_spec (function_name : String) (episode_id : Uuid) :
    get_uniform_value function_name episode_id =
      (sha256TruncatedHash function_name episode_id : ℚ) / (2 ^ 32 - 1) ∧
    0 ≤ get_uniform_value function_name episode_id ∧
    get_uniform_value function_name episode_id ≤ 1 := by
  have hle : (sha256TruncatedHash function_name episode_id : ℚ) ≤ 2 ^ 32 - 1 := by
    have := sha256TruncatedHash_le function_name episode_id
    have hcast : (sha256TruncatedHash function_name episode_id : ℚ) ≤ (u32MAX : ℚ) := by
      exact_mod_cast this
    calc (sha256TruncatedHash function_name episode_id : ℚ)
        ≤ (u32MAX : ℚ) := hcast
      _ = 2 ^ 32 - 1 := by norm_num [u32MAX]
  refine ⟨by norm_num [get_uniform_value, u32MAX], ?_, ?_⟩
  · unfold get_uniform_value
    positivity
  · unfold get_uniform_value
    rw [div_le_one (by norm_num [u32MAX])]
    calc (sha256TruncatedHash function_name episode_id : ℚ)
        ≤ 2 ^ 32 - 1 := hle
      _ = (u32MAX : ℚ) := by norm_num [u32MAX]

namespace TensorZero

/-! ## The variant sampler (`sample_variant`)
(`tensorzero-core/src/function.rs`)

`sample_variant` gets a mutable candidate list, the variants map, the
function name and the episode id. `f64` weights are modelled exactly over
`ℚ`; `Vec::swap_remove` out of bounds is a Rust panic, modelled as a
dedicated result. -/

/-- `VariantInfo`, exposing the one accessor the sampler uses:
`inner.weight()`, an optional non-negative weight. -/
structure VariantInfo where
  weight : Option ℚ
deriving DecidableEq, Repr

/-- The variants map (`HashMap<String, VariantInfo>`; the sampler only
calls `get`, modelled on an association list). -/
abbrev VariantsMap := List (String × VariantInfo)

/-- `HashMap::get`. -/
def variantsGet (variants : VariantsMap) (name : String) : Option VariantInfo :=
  (variants.find? fun p => p.1 == name).map fun p => p.2

/-- `Vec::swap_remove(i)`: return the element at `i`, replace it by the
last element and pop; `none` models the Rust panic when `i` is out of
bounds. -/
def swapRemove (l : List α) (i : Nat) : Option (α × List α) :=
  if h : i < l.length then
    some (l.get ⟨i, h⟩, (l.set i (l.get ⟨l.length - 1, by omega⟩)).dropLast)
  else
    none

/-- The result of `sample_variant`: the sampled name with its variant info
and the candidate list after removal, a typed error
(`InvalidFunctionVariants`, as its message), or a Rust panic. -/
inductive SampleResult where
  | ok (name : String) (info : VariantInfo) (remaining : List String)
  | err (message : String)
  | panic
deriving DecidableEq, Repr

/-- The result of the threshold loop of `sample_variant`. -/
inductive LoopResult where
  | found (name : String) (remaining : List String)
  | notFound
  | err (message : String)
  | panic
deriving DecidableEq, Repr

/-- The threshold loop of `sample_variant`: walk the candidates in order
accumulating weights; at the first candidate whose cumulative weight
strictly exceeds the threshold, `swap_remove` it from the (still
unmodified) candidate list and stop. -/
def sampleLoop (variants : VariantsMap) (function_name : String) (random_threshold : ℚ)
    (candidate_variant_names : List String) :
    List String → Nat → ℚ → LoopResult
  | [], _, _ => .notFound
  | variant_name :: rest, i, cumulative_weight =>
    match variantsGet variants variant_name with
    | none => .err ("Function `" ++ function_name ++ "` has no variant `" ++
        variant_name ++ "`")
    | some variant =>
      let cumulative_weight := cumulative_weight + variant.weight.getD 0
      if cumulative_weight > random_threshold then
        match swapRemove candidate_variant_names i with
        | some (picked, remaining) => .found picked remaining
        | none => .panic
      else
        sampleLoop variants function_name random_threshold candidate_variant_names
          rest (i + 1) cumulative_weight

/-- The fallible tail of `sample_variant`: look the sampled name up in the
variants map and return the pair. -/
def sampleFinish (variants : VariantsMap) (function_name : String)
    (sampled_variant_name : String) (remaining : List String) : SampleResult :=
  match variantsGet variants sampled_variant_name with
  | some variant => .ok sampled_variant_name variant remaining
  | none => .err ("Function `" ++ function_name ++ "` has no variant `" ++
      sampled_variant_name ++ "`")

/-- `sample_variant` from `tensorzero-core/src/function.rs`: sum the
weights of the candidates present in the map; on a non-positive total,
sample uniformly by hashed index (an empty candidate list is an
`InvalidFunctionVariants` error); otherwise walk the candidates to the
first whose cumulative weight strictly exceeds
`get_uniform_value * total`, and when the loop ends with the sentinel name
`""` still in place, fall back to `swap_remove(variants.len() - 1)`. -/
def sample_variant (candidate_variant_names : List String) (variants : VariantsMap)
    (function_name : String) (episode_id : Uuid) : SampleResult :=
  let total_weight : ℚ :=
    ((candidate_variant_names.filterMap fun name => variantsGet variants name).map
      fun variant => variant.weight.getD 0).sum
  if total_weight ≤ 0 then
    if candidate_variant_names.isEmpty then
      .err ("Function `" ++ function_name ++ "` has no variants")
    else
      let random_index :=
        (⌊get_uniform_value function_name episode_id *
          (candidate_variant_names.length : ℚ)⌋).toNat
      if random_index < candidate_variant_names.length then
        match swapRemove candidate_variant_names random_index with
        | some (sampled_variant_name, remaining) =>
          sampleFinish variants function_name sampled_variant_name remaining
        | none => .panic
      else
        .err ("Invalid index " ++ toString random_index ++ " for function `" ++
          function_name ++ "` with " ++ toString candidate_variant_names.length ++
          " variants")
  else
    let random_threshold := get_uniform_value function_name episode_id * total_weight
    match sampleLoop variants function_name random_threshold candidate_variant_names
        candidate_variant_names 0 0 with
    | .err e => .err e
    | .panic => .panic
    | .found sampled_variant_name remaining =>
      if sampled_variant_name = "" then
        match swapRemove remaining (variants.length - 1) with
        | some (fallback_name, remaining2) =>
          sampleFinish variants function_name fallback_name remaining2
        | none => .panic
      else
        sampleFinish variants function_name sampled_variant_name remaining
    | .notFound =>
      match swapRemove candidate_variant_names (variants.length - 1) with
      | some (fallback_name, remaining2) =>
        sampleFinish variants function_name fallback_name remaining2
      | none => .panic

end TensorZero

/-! Sanity: on a normally-named candidate the threshold branch returns the
first candidate whose cumulative weight strictly exceeds the threshold. -/

example :
    TensorZero.sample_variant ["A"] [("A", ⟨some 1⟩)] "f" ⟨List.replicate 16 0⟩ =
      .ok "A" ⟨some 1⟩ [] := by
  have hu : TensorZero.get_uniform_value "f" ⟨List.replicate 16 0⟩ =
      936954986 / 4294967295 := by
    have hhash : TensorZero.sha256TruncatedHash "f" ⟨List.replicate 16 0⟩ = 936954986 := by
      decide
    unfold TensorZero.get_uniform_value TensorZero.u32MAX
    rw [hhash]
    norm_num
  norm_num [TensorZero.sample_variant, TensorZero.sampleLoop, TensorZero.variantsGet,
    TensorZero.swapRemove, TensorZero.sampleFinish, hu]
  norm_num [List.filterMap_cons, List.filterMap_nil]
  decide

/-- C5 (code bug): on the candidate list `[""]` with the single variant
named `""` of weight 1 — total weight positive, every candidate present in
the map — the loop selects the first (and only) candidate, whose cumulative
weight 1 strictly exceeds the threshold, but because the selected name
collides with the loop's `""` sentinel, the fallback
`swap_remove(variants.len() - 1)` then runs on the already-emptied
candidate list and panics (index out of bounds) instead of returning the
selected candidate. -/
theorem TensorZero.sample_variant_empty_name_panic :
    sample_variant [""] [("", ⟨some 1⟩)] "f" ⟨List.replicate 16 0⟩ = .panic := by
  have hu : get_uniform_value "f" ⟨List.replicate 16 0⟩ = 936954986 / 4294967295 := by
    have hhash : sha256TruncatedHash "f" ⟨List.replicate 16 0⟩ = 936954986 := by decide
    unfold get_uniform_value u32MAX
    rw [hhash]
    norm_num
  norm_num [sample_variant, sampleLoop, variantsGet, swapRemove, sampleFinish, hu]
  norm_num [List.filterMap_cons, List.filterMap_nil]

namespace TensorZero

/-! ## SGLang provider translation
(`tensorzero-core/src/providers/sglang.rs`)

Streaming chunk translation (`sglang_to_tensorzero_chunk`) and
non-streaming response translation
(`TryFrom<SGLangResponseWithMetadata> for ProviderInferenceResponse`).
The OpenAI-shaped wire structs (`providers/openai.rs` is not among the
provided sources) are modelled from the spec and their use sites; latency
values (wall-clock time) are outside the embedding. -/

/-- The normalized finish reason. -/
inductive FinishReason where
  | stop
  | length
  | toolCall
  | contentFilter
  | unknown
deriving DecidableEq, Repr

/-- `SGLangFinishReason` (wire form). -/
inductive SGLangFinishReason where
  | stop
  | length
  | toolCalls
  | contentFilter
  | unknown
deriving DecidableEq, Repr

/-- `From<SGLangFinishReason> for FinishReason`. -/
def SGLangFinishReason.toFinishReason : SGLangFinishReason → FinishReason
  | .stop => .stop
  | .length => .length
  | .toolCalls => .toolCall
  | .contentFilter => .contentFilter
  | .unknown => .unknown

/-- `OpenAIUsage` (wire form), modelled from the spec. -/
structure OpenAIUsage where
  prompt_tokens : Nat
  completion_tokens : Nat
deriving DecidableEq, Repr

/-- The normalized `Usage`. -/
structure Usage where
  input_tokens : Nat
  output_tokens : Nat
deriving DecidableEq, Repr

/-- Modelled from the spec: usage is normalized to
`{input_tokens, output_tokens}`. -/
def OpenAIUsage.toUsage (u : OpenAIUsage) : Usage :=
  ⟨u.prompt_tokens, u.completion_tokens⟩

/-- `SGLangFunctionCallChunk`. -/
structure SGLangFunctionCallChunk where
  name : Option String
  arguments : Option String
deriving DecidableEq, Repr

/-- `SGLangToolCallChunk`: the provider-supplied index is an optional
byte. -/
structure SGLangToolCallChunk where
  index : Option Nat
  id : Option String
  function : SGLangFunctionCallChunk
deriving DecidableEq, Repr

/-- `SGLangDelta`. -/
structure SGLangDelta where
  content : Option String
  tool_calls : Option (List SGLangToolCallChunk)
deriving DecidableEq, Repr

/-- `SGLangChatChunkChoice`. -/
structure SGLangChatChunkChoice where
  delta : SGLangDelta
  finish_reason : Option SGLangFinishReason
deriving DecidableEq, Repr

/-- `SGLangChatChunk`. -/
structure SGLangChatChunk where
  choices : List SGLangChatChunkChoice
  usage : Option OpenAIUsage
deriving DecidableEq, Repr

/-- A streamed text chunk block. -/
structure TextChunk where
  text : String
  id : String
deriving DecidableEq, Repr

/-- A streamed tool-call chunk block. -/
structure ToolCallChunk where
  id : String
  raw_name : Option String
  raw_arguments : String
deriving DecidableEq, Repr

/-- A streamed content block. -/
inductive ContentBlockChunk where
  | text (t : TextChunk)
  | toolCall (tc : ToolCallChunk)
deriving DecidableEq, Repr

/-- `ProviderInferenceResponseChunk` (latency omitted: wall-clock time is
outside the embedding). -/
structure ProviderInferenceResponseChunk where
  content : List ContentBlockChunk
  usage : Option Usage
  raw_response : String
  finish_reason : Option FinishReason
deriving DecidableEq, Repr

/-- The payload of `ErrorDetails::InferenceServer`. -/
structure InferenceServerError where
  message : String
  raw_request : Option String
  raw_response : Option String
  provider_type : String
deriving DecidableEq, Repr

/-- Modelled from the spec: `serde_json::to_string` of a
`SGLangChatChunk` (derived `Serialize`; only attached to the
more-than-one-choice error, whose payload no claim inspects). -/
def serializeSGLangChatChunk (chunk : SGLangChatChunk) : String :=
  toString (repr chunk)

/-- The tool-call loop of `sglang_to_tensorzero_chunk`: a delta carrying an
id pushes it onto the per-stream id list and emits a block with that id; a
delta with no id reuses the id at position `index` (0 when absent) of the
id list, and errors when that position is beyond the list. -/
def processToolCalls (tool_call_ids : List String) :
    List SGLangToolCallChunk →
      Except InferenceServerError (List ContentBlockChunk × List String)
  | [] => .ok ([], tool_call_ids)
  | tool_call :: rest =>
    let index := tool_call.index
    match tool_call.id with
    | some id =>
      (processToolCalls (tool_call_ids ++ [id]) rest).map fun out =>
        (.toolCall ⟨id, tool_call.function.name, tool_call.function.arguments.getD ""⟩
          :: out.1, out.2)
    | none =>
      match tool_call_ids[index.getD 0]? with
      | some id =>
        (processToolCalls tool_call_ids rest).map fun out =>
          (.toolCall ⟨id, tool_call.function.name, tool_call.function.arguments.getD ""⟩
            :: out.1, out.2)
      | none =>
        .error ⟨"Tool call index out of bounds (meaning we haven't seen this many ids in the stream)",
          none, none, "sglang"⟩

/-- `sglang_to_tensorzero_chunk` from
`tensorzero-core/src/providers/sglang.rs`: more than one choice is an
upstream-format error; otherwise the (optional) single choice's text
content becomes a `Text` block with id `"0"`, its tool-call deltas are
translated by `processToolCalls` threading the per-stream id list, and the
finish reason and usage are attached. -/
def sglang_to_tensorzero_chunk (raw_message : String) (chunk : SGLangChatChunk)
    (tool_call_ids : List String) :
    Except InferenceServerError (ProviderInferenceResponseChunk × List String) :=
  if chunk.choices.length > 1 then
    .error ⟨"Response has invalid number of choices: {}. Expected 1.",
      none, some (serializeSGLangChatChunk chunk), "sglang"⟩
  else
    let usage := chunk.usage.map OpenAIUsage.toUsage
    match chunk.choices.getLast? with
    | none => .ok (⟨[], usage, raw_message, none⟩, tool_call_ids)
    | some choice =>
      let finish_reason := choice.finish_reason.map SGLangFinishReason.toFinishReason
      let text_content : List ContentBlockChunk :=
        match choice.delta.content with
        | some text => [.text ⟨text, "0"⟩]
        | none => []
      match choice.delta.tool_calls with
      | none => .ok (⟨text_content, usage, raw_message, finish_reason⟩, tool_call_ids)
      | some tool_calls =>
        (processToolCalls tool_call_ids tool_calls).map fun out =>
          (⟨text_content ++ out.1, usage, raw_message, finish_reason⟩, out.2)

end TensorZero

/-- C6: for a one-choice chunk holding a single tool-call delta — a delta
carrying an id appends that id to the per-stream id list and yields a
`ToolCall` chunk with that id; a delta with no id reuses the id at position
`index` (0 when absent) of the list; a delta with no id whose index is at
or beyond the length of the list is an error; and the two-chunk sequence
`[{id:"t1", name:"f", args:"{\"a"}, {args:":1}"}]` yields chunks sharing
the single id `t1` whose arguments concatenate to the full `{\"a:1}`. -/
theorem TensorZero.sglang_to_tensorzero_chunk_spec :
    (∀ (raw : String) (ids : List String) (index : Option Nat) (id : String)
       (name arguments : Option String) (usage : Option OpenAIUsage)
       (finish : Option SGLangFinishReason),
      sglang_to_tensorzero_chunk raw
          ⟨[⟨⟨none, some [⟨index, some id, ⟨name, arguments⟩⟩]⟩, finish⟩], usage⟩ ids =
        .ok (⟨[.toolCall ⟨id, name, arguments.getD ""⟩], usage.map OpenAIUsage.toUsage,
          raw, finish.map SGLangFinishReason.toFinishReason⟩, ids ++ [id])) ∧
    (∀ (raw : String) (ids : List String) (index : Option Nat)
       (name arguments : Option String) (usage : Option OpenAIUsage)
       (finish : Option SGLangFinishReason) (hidx : index.getD 0 < ids.length),
      sglang_to_tensorzero_chunk raw
          ⟨[⟨⟨none, some [⟨index, none, ⟨name, arguments⟩⟩]⟩, finish⟩], usage⟩ ids =
        .ok (⟨[.toolCall ⟨ids.get ⟨index.getD 0, hidx⟩, name, arguments.getD ""⟩],
          usage.map OpenAIUsage.toUsage, raw,
          finish.map SGLangFinishReason.toFinishReason⟩, ids)) ∧
    (∀ (raw : String) (ids : List String) (index : Option Nat)
       (name arguments : Option String) (usage : Option OpenAIUsage)
       (finish : Option SGLangFinishReason), ids.length ≤ index.getD 0 →
      sglang_to_tensorzero_chunk raw
          ⟨[⟨⟨none, some [⟨index, none, ⟨name, arguments⟩⟩]⟩, finish⟩], usage⟩ ids =
        .error ⟨"Tool call index out of bounds (meaning we haven't seen this many ids in the stream)",
          none, none, "sglang"⟩) ∧
    (sglang_to_tensorzero_chunk "c1"
        ⟨[⟨⟨none, some [⟨none, some "t1", ⟨some "f", some "\x7b\"a"⟩⟩]⟩, none⟩], none⟩ [] =
      .ok (⟨[.toolCall ⟨"t1", some "f", "\x7b\"a"⟩], none, "c1", none⟩, ["t1"]) ∧
     sglang_to_tensorzero_chunk "c2"
        ⟨[⟨⟨none, some [⟨none, none, ⟨none, some ":1\x7d"⟩⟩]⟩, none⟩], none⟩ ["t1"] =
      .ok (⟨[.toolCall ⟨"t1", none, ":1\x7d"⟩], none, "c2", none⟩, ["t1"]) ∧
     "\x7b\"a" ++ ":1\x7d" = "\x7b\"a:1\x7d") := by
  refine ⟨?_, ?_, ?_, ?_, ?_, rfl⟩
  · intro raw ids index id name arguments usage finish
    simp [sglang_to_tensorzero_chunk, processToolCalls, Except.map]
  · intro raw ids index name arguments usage finish hidx
    have hget : ids[index.getD 0]? = some (ids.get ⟨index.getD 0, hidx⟩) := by
      simp [List.getElem?_eq_getElem hidx]
    simp [sglang_to_tensorzero_chunk, processToolCalls, hget, Except.map]
  · intro raw ids index name arguments usage finish hidx
    have hget : ids[index.getD 0]? = none := by
      simp [List.getElem?_eq_none hidx]
    simp [sglang_to_tensorzero_chunk, processToolCalls, hget, Except.map]
  · simp [sglang_to_tensorzero_chunk, processToolCalls, Except.map]
  · simp [sglang_to_tensorzero_chunk, processToolCalls, Except.map]

/-- Witness for C6: the id-reuse clause of `sglang_to_tensorzero_chunk_spec`
applied with the id list `["t1"]` and an absent index, and the out-of-bounds
clause applied with an empty id list. -/
theorem TensorZero.sglang_to_tensorzero_chunk_spec_witness :
    sglang_to_tensorzero_chunk "raw"
        ⟨[⟨⟨none, some [⟨none, none, ⟨none, some "x"⟩⟩]⟩, none⟩], none⟩ ["t1"] =
      .ok (⟨[.toolCall ⟨"t1", none, "x"⟩], none, "raw", none⟩, ["t1"]) ∧
    sglang_to_tensorzero_chunk "raw"
        ⟨[⟨⟨none, some [⟨none, none, ⟨none, some "x"⟩⟩]⟩, none⟩], none⟩ [] =
      .error ⟨"Tool call index out of bounds (meaning we haven't seen this many ids in the stream)",
        none, none, "sglang"⟩ := by
  constructor
  · have h := (TensorZero.sglang_to_tensorzero_chunk_spec).2.1 "raw" ["t1"] none
      none (some "x") none none (by decide)
    simpa using h
  · exact (TensorZero.sglang_to_tensorzero_chunk_spec).2.2.1 "raw" [] none
      none (some "x") none none (by decide)

namespace TensorZero

/-- `OpenAIResponseFunctionCall` (wire form), modelled from the spec. -/
structure OpenAIResponseFunctionCall where
  name : String
  arguments : String
deriving DecidableEq, Repr

/-- `OpenAIResponseToolCall` (wire form), modelled from the spec. -/
structure OpenAIResponseToolCall where
  id : String
  function : OpenAIResponseFunctionCall
deriving DecidableEq, Repr

/-- `From<OpenAIResponseToolCall> for ToolCall`: modelled from the spec —
tool calls in the final message become `ContentBlockOutput::ToolCall`
entries. -/
def OpenAIResponseToolCall.toToolCallOutput (tc : OpenAIResponseToolCall) : ToolCallOutput :=
  ⟨tc.id, tc.function.name, tc.function.arguments⟩

/-- `OpenAIResponseMessage` (wire form), modelled from the spec. -/
structure OpenAIResponseMessage where
  content : Option String
  tool_calls : Option (List OpenAIResponseToolCall)
deriving DecidableEq, Repr

/-- `OpenAIFinishReason` (wire form), modelled from the spec: unknown
strings bucket to `Unknown`, never fail. -/
inductive OpenAIFinishReason where
  | stop
  | length
  | toolCalls
  | contentFilter
  | unknown
deriving DecidableEq, Repr

/-- `From<OpenAIFinishReason> for FinishReason`, modelled from the spec. -/
def OpenAIFinishReason.toFinishReason : OpenAIFinishReason → FinishReason
  | .stop => .stop
  | .length => .length
  | .toolCalls => .toolCall
  | .contentFilter => .contentFilter
  | .unknown => .unknown

/-- `OpenAIResponseChoice` (wire form), modelled from the spec. -/
structure OpenAIResponseChoice where
  index : Nat
  message : OpenAIResponseMessage
  finish_reason : OpenAIFinishReason
deriving DecidableEq, Repr

/-- `OpenAIResponse` (wire form), modelled from the spec. -/
structure OpenAIResponse where
  choices : List OpenAIResponseChoice
  usage : OpenAIUsage
deriving DecidableEq, Repr

/-- The wire finish reason as its wire string. -/
def OpenAIFinishReason.wireName : OpenAIFinishReason → String
  | .stop => "stop"
  | .length => "length"
  | .toolCalls => "tool_calls"
  | .contentFilter => "content_filter"
  | .unknown => "unknown"

/-- Modelled from the spec: the derived `Serialize` of `OpenAIResponse`
as a JSON value. -/
def OpenAIResponse.toJsonValue (r : OpenAIResponse) : Json :=
  .obj [("choices", .arr (r.choices.map fun c =>
      .obj [("index", .num c.index),
            ("message", .obj
              ((match c.message.content with
                | some t => [("content", Json.str t)]
                | none => []) ++
               (match c.message.tool_calls with
                | some tcs => [("tool_calls", Json.arr (tcs.map fun tc =>
                    .obj [("id", .str tc.id),
                          ("function", .obj [("name", .str tc.function.name),
                                             ("arguments", .str tc.function.arguments)])]))]
                | none => []))),
            ("finish_reason", .str c.finish_reason.wireName)])),
    ("usage", .obj [("prompt_tokens", .num r.usage.prompt_tokens),
                    ("completion_tokens", .num r.usage.completion_tokens)])]

/-- Modelled from the spec: `serde_json::to_string(&response)`. -/
def serializeOpenAIResponse (r : OpenAIResponse) : String :=
  serializeJson r.toJsonValue

/-- `SGLangResponseWithMetadata` (the latency and the copied message
history are outside the embedding). -/
structure SGLangResponseWithMetadata where
  response : OpenAIResponse
  raw_response : String
  raw_request : String
  generic_system : Option String
deriving DecidableEq, Repr

/-- `ProviderInferenceResponse` (latency and the copied input messages are
outside the embedding). -/
structure ProviderInferenceResponse where
  output : List ContentBlockOutput
  system : Option String
  raw_request : String
  raw_response : String
  usage : Usage
  finish_reason : Option FinishReason
deriving DecidableEq, Repr

/-- `TryFrom<SGLangResponseWithMetadata> for ProviderInferenceResponse`
from `tensorzero-core/src/providers/sglang.rs`: any choice count other
than 1 is an `InferenceServer` error carrying the raw request and the
re-serialized response; otherwise the single choice's text content is
emitted first, then its tool calls, with normalized usage and finish
reason. -/
def sglangTryFrom (value : SGLangResponseWithMetadata) :
    Except InferenceServerError ProviderInferenceResponse :=
  if value.response.choices.length ≠ 1 then
    .error ⟨"Response has invalid number of choices: " ++
        toString value.response.choices.length ++ ". Expected 1.",
      some value.raw_request, some (serializeOpenAIResponse value.response), "sglang"⟩
  else
    match value.response.choices.getLast? with
    | none =>
      .error ⟨"Response has no choices (this should never happen). Please file a bug report: https://github.com/tensorzero/tensorzero/issues/new",
        some value.raw_request, some value.raw_response, "sglang"⟩
    | some choice =>
      let content : List ContentBlockOutput :=
        (match choice.message.content with
         | some text => [.text ⟨text⟩]
         | none => []) ++
        (choice.message.tool_calls.getD []).map fun tc =>
          .toolCall tc.toToolCallOutput
      .ok ⟨content, value.generic_system, value.raw_request, value.raw_response,
        value.response.usage.toUsage, some choice.finish_reason.toFinishReason⟩

end TensorZero

/-- C8: whenever the provider response's choice count differs from 1,
response translation returns an `InferenceServer` error carrying the raw
request and a raw response (the re-serialized provider response), and never
produces a `ProviderInferenceResponse`. -/
theorem TensorZero.sglang_try_from_spec (value : SGLangResponseWithMetadata)
    (h : value.response.choices.length ≠ 1) :
    sglangTryFrom value =
      .error ⟨"Response has invalid number of choices: " ++
          toString value.response.choices.length ++ ". Expected 1.",
        some value.raw_request, some (serializeOpenAIResponse value.response), "sglang"⟩ ∧
    ∀ r, sglangTryFrom value ≠ .ok r := by
  constructor
  · simp [sglangTryFrom, h]
  · intro r
    simp [sglangTryFrom, h]

/-- Witness for C8: a zero-choice response translates to the
`InferenceServer` error with the raw request and the serialized response
attached. -/
theorem TensorZero.sglang_try_from_spec_witness :
    sglangTryFrom ⟨⟨[], ⟨10, 20⟩⟩, "raw resp", "raw req", none⟩ =
      .error ⟨"Response has invalid number of choices: 0. Expected 1.",
        some "raw req",
        some "\x7b\"choices\":[],\"usage\":\x7b\"prompt_tokens\":10,\"completion_tokens\":20\x7d\x7d",
        "sglang"⟩ := by
  have h := (TensorZero.sglang_try_from_spec ⟨⟨[], ⟨10, 20⟩⟩, "raw resp", "raw req", none⟩
    (by decide)).1
  rw [h]
  simp [serializeOpenAIResponse, OpenAIResponse.toJsonValue, serializeJson,
    serializeJsonFields, serializeJsonArray, serializeJsonString, escapeJsonChar,
    String.join]
  decide

namespace TensorZero

/-! ## Authentication (`tensorzero-core/src/auth/`)

`authenticate_request` extracts the bearer code from the
`TUPLEAP_AUTHCODE` header, validates it cache-first
(`validate_auth_code_with_cache`), rejects invalid codes, attaches the
`AuthInfo` to the request, and calls `increment_usage_and_stats` before
letting the request proceed. The ClickHouse analytics store is modelled as
the list of `AUTHCode` rows; the row-selecting query of
`validate_auth_code_from_db` (`WHERE auth_code = '…' AND is_active = 1`)
is modelled by its selection semantics, and the emptiness test of the
result string by the emptiness of the selected rows. The moka cache is
modelled as an association list where an insert shadows older entries;
TTL and capacity eviction (wall-clock time) are outside the embedding. -/

/-- `AuthInfo` from `auth/mod.rs`. -/
structure AuthInfo where
  tenant_id : String
  username : String
  auth_code : String
  is_valid : Bool
deriving DecidableEq, Repr

/-- `AuthCodeRecord` from `auth/token_validation.rs`: a row of the
`AUTHCode` table. -/
structure AuthCodeRecord where
  auth_code : String
  tenant_id : String
  username : String
  created_at : String
  is_active : Nat
  usage_count : Nat
  expires_at : Option String
deriving DecidableEq, Repr

/-- The analytics database: the `AUTHCode` rows. -/
abbrev AuthDb := List AuthCodeRecord

/-- The auth cache contents (most recent insert first). -/
abbrev AuthCacheMap := List (String × AuthInfo)

/-- `AuthCache::get`. -/
def authCacheGet (cache : AuthCacheMap) (key : String) : Option AuthInfo :=
  (cache.find? fun p => p.1 == key).map fun p => p.2

/-- `AuthCache::insert` (the new entry shadows any older one). -/
def authCacheInsert (cache : AuthCacheMap) (key : String) (value : AuthInfo) : AuthCacheMap :=
  (key, value) :: cache

/-- The two error kinds of the authentication path. -/
inductive AuthError where
  | apiKeyMissing (provider_name : String)
  | invalidAuthToken (provider_name : String)
deriving DecidableEq, Repr

/-- The rows selected by the query of `validate_auth_code_from_db`:
`SELECT … FROM AUTHCode WHERE auth_code = '…' AND is_active = 1`; the
query's result string is empty exactly when no row is selected. -/
def authQueryRows (db : AuthDb) (auth_code : String) : List AuthCodeRecord :=
  db.filter fun r => r.auth_code == auth_code && r.is_active == 1

/-- `validate_auth_code_from_db` from `auth/token_validation.rs`: an empty
query result is `InvalidAuthToken`; otherwise the returned `AuthInfo` has
every string field set to `""` and only `is_valid` set to true, whatever
the row holds. -/
def validate_auth_code_from_db (auth_code : String) (db : AuthDb) :
    Except AuthError AuthInfo :=
  if (authQueryRows db auth_code).isEmpty then
    .error (.invalidAuthToken "TUPLEAP_AUTHCODE")
  else
    .ok ⟨"", "", "", true⟩

/-- `validate_auth_code_with_cache` from `auth/token_validation.rs`: cache
first; on a miss, query the database and cache the result. -/
def validate_auth_code_with_cache (auth_code : String) (cache : AuthCacheMap)
    (db : AuthDb) : Except AuthError (AuthInfo × AuthCacheMap) :=
  match authCacheGet cache auth_code with
  | some cached_info => .ok (cached_info, cache)
  | none =>
    (validate_auth_code_from_db auth_code db).map fun auth_info =>
      (auth_info, authCacheInsert cache auth_code auth_info)

/-- `increment_usage_and_stats` from `auth/token_validation.rs`: its whole
body is commented out in the source — it performs no database operation
and returns `Ok(())`, so the database comes back unchanged. -/
def increment_usage_and_stats (auth_code : String) (db : AuthDb) :
    Except AuthError AuthDb :=
  Except.ok db

/-- `authenticate_request` from `auth/mod.rs`: a missing header is
`ApiKeyMissing`; a failed validation is mapped to `InvalidAuthToken`; an
`AuthInfo` with `is_valid` false is `InvalidAuthToken`; otherwise the
`AuthInfo` is attached to the request (the first component of the result),
`increment_usage_and_stats` runs, and the request proceeds with the
updated cache and database states. -/
def authenticate_request (header_auth_code : Option String) (cache : AuthCacheMap)
    (db : AuthDb) : Except AuthError (AuthInfo × AuthCacheMap × AuthDb) :=
  match header_auth_code with
  | none => .error (.apiKeyMissing "TUPLEAP_AUTHCODE")
  | some auth_code =>
    match validate_auth_code_with_cache auth_code cache db with
    | .error _ => .error (.invalidAuthToken "TUPLEAP_AUTHCODE")
    | .ok (auth_info, cache2) =>
      if auth_info.is_valid then
        (increment_usage_and_stats auth_code db).map fun db2 =>
          (auth_info, cache2, db2)
      else
        .error (.invalidAuthToken "TUPLEAP_AUTHCODE")

end TensorZero

/-- C9 (code bug): a successful authentication — bearer code "abc", cache
empty, one active row with usage_count 5 — proceeds with the database
returned exactly as it was: the usage counter is still 5, because the
body of `increment_usage_and_stats` is commented out in the source and
the function performs no database operation. -/
theorem TensorZero.authenticate_request_no_increment :
    authenticate_request (some "abc") []
        [⟨"abc", "tenant1", "alice", "2025-01-01", 1, 5, none⟩] =
      .ok (⟨"", "", "", true⟩,
        [("abc", ⟨"", "", "", true⟩)],
        [⟨"abc", "tenant1", "alice", "2025-01-01", 1, 5, none⟩]) ∧
    ∀ (code : String) (cache : AuthCacheMap) (db : AuthDb),
      increment_usage_and_stats code db = .ok db := by
  exact ⟨by decide, fun code cache db => rfl⟩

/-- C10: when the database holds an active row (`is_active = 1`) for the
bearer code, `validate_auth_code_from_db` returns the `AuthInfo` whose
`tenant_id`, `username` and `auth_code` are all `""` with only `is_valid`
true, whatever the row's stored values; on a cache miss this blanked
`AuthInfo` is what gets cached by `validate_auth_code_with_cache` and what
`authenticate_request` attaches to the authenticated request. -/
theorem TensorZero.validate_auth_code_blanked_spec (auth_code : String) (db : AuthDb)
    (cache : AuthCacheMap)
    (hrow : ∃ r ∈ db, r.auth_code = auth_code ∧ r.is_active = 1) :
    validate_auth_code_from_db auth_code db = .ok ⟨"", "", "", true⟩ ∧
    (authCacheGet cache auth_code = none →
      validate_auth_code_with_cache auth_code cache db =
        .ok (⟨"", "", "", true⟩, authCacheInsert cache auth_code ⟨"", "", "", true⟩)) ∧
    (authCacheGet cache auth_code = none →
      authenticate_request (some auth_code) cache db =
        .ok (⟨"", "", "", true⟩, authCacheInsert cache auth_code ⟨"", "", "", true⟩, db)) := by
  obtain ⟨r, hr, hcode, hactive⟩ := hrow
  have hmem : r ∈ authQueryRows db auth_code :=
    List.mem_filter.mpr ⟨hr, by simp [hcode, hactive]⟩
  have hne : (authQueryRows db auth_code).isEmpty = false := by
    cases hq : authQueryRows db auth_code with
    | nil => rw [hq] at hmem; exact absurd hmem (by simp)
    | cons x xs => simp
  have hdb : validate_auth_code_from_db auth_code db = .ok ⟨"", "", "", true⟩ := by
    simp [validate_auth_code_from_db, hne]
  refine ⟨hdb, ?_, ?_⟩
  · intro hmiss
    simp [validate_auth_code_with_cache, hmiss, hdb, Except.map]
  · intro hmiss
    simp [authenticate_request, validate_auth_code_with_cache, hmiss, hdb,
      increment_usage_and_stats, Except.map]

/-- Witness for C10: with a database row holding a non-empty tenant,
username and code, the validation still returns, caches and attaches the
blanked `AuthInfo`. -/
theorem TensorZero.validate_auth_code_blanked_spec_witness :
    validate_auth_code_from_db "abc"
        [⟨"abc", "tenant1", "alice", "2025-01-01", 1, 5, none⟩] =
      .ok ⟨"", "", "", true⟩ ∧
    authenticate_request (some "abc") []
        [⟨"abc", "tenant1", "alice", "2025-01-01", 1, 5, none⟩] =
      .ok (⟨"", "", "", true⟩, [("abc", ⟨"", "", "", true⟩)],
        [⟨"abc", "tenant1", "alice", "2025-01-01", 1, 5, none⟩]) := by
  have h := TensorZero.validate_auth_code_blanked_spec "abc"
    [⟨"abc", "tenant1", "alice", "2025-01-01", 1, 5, none⟩] []
    ⟨⟨"abc", "tenant1", "alice", "2025-01-01", 1, 5, none⟩, by simp, rfl, rfl⟩
  exact ⟨h.1, by simpa [authCacheInsert] using h.2.2 (by simp [authCacheGet])⟩
